import Mathlib

/-!
Shallow embedding of the shader-reflection / descriptor-binding layer of the
Flint repository (src/shader/descriptor.rs and src/buffer/buf_struct.rs).

Modelling conventions:
* Rust `HashMap`s are embedded as association lists kept in insertion order;
  `HashMap` indexing (`map[key]`), which panics on a missing key, is embedded
  as a lookup returning `Option`, with the panic surfaced as an error value.
  Rust's `HashMap` iteration order is unspecified (seed-randomised per map
  instance), so facts that depend on iteration order are stated over an
  explicit entry-order parameter.
* Vulkan device calls are embedded by the records they would receive
  (pool-create info, push-constant commands, mapped-write ranges); machine
  integers (`u32`, `vk::DeviceSize = u64`) are embedded as `Nat` — none of the
  verified paths can overflow 64 bits on the inputs considered, and the Rust
  arithmetic involved (`+`, `%`, `-` after a `%`-guard) never wraps.
* Reflection (`spirv_cross`) output is embedded as explicit declaration
  records (`MemberDecl`, `ResourceDecl`, `StageDecl`) carrying exactly the
  data the code reads from the AST: declared member offsets and sizes, the
  (set, binding) decorations, resource kind and array count, and stage flags.
-/

namespace Flint

/-- The subset of ash's `vk::DescriptorType` constants this crate produces. -/
inductive DescriptorType where
  | SAMPLED_IMAGE
  | COMBINED_IMAGE_SAMPLER
  | SAMPLER
  | UNIFORM_BUFFER
deriving DecidableEq, Repr

/-- ash's `vk::ShaderStageFlags`, a bitmask carried through unchanged. -/
abbrev ShaderStageFlags := Nat

/-- `vk::ShaderStageFlags::VERTEX`. -/
def VERTEX : ShaderStageFlags := 1

/-- `vk::ShaderStageFlags::FRAGMENT`. -/
def FRAGMENT : ShaderStageFlags := 16

/-- Association-list lookup with `String` keys: the embedding of
`HashMap::get` / `contains_key` for name-keyed maps. -/
def findEntry {β : Type} : List (String × β) → String → Option β
  | [], _ => none
  | e :: rest, k => if e.1 = k then some e.2 else findEntry rest k

/-- One structured member as reflection reports it: name, declared (tightly
packed) byte offset, declared byte size, mapped resource kind and count. -/
structure MemberDecl where
  name : String
  declaredOffset : Nat
  size : Nat
  ty : DescriptorType
  count : Nat
deriving DecidableEq, Repr

/-- One reflected resource: its (set, binding) decorations, name, mapped
resource kind, array count, and struct members (empty if not structured). -/
structure ResourceDecl where
  set : Nat
  binding : Nat
  name : String
  ty : DescriptorType
  count : Nat
  members : List MemberDecl
deriving DecidableEq, Repr

/-- `DescField` (src/src/shader/descriptor.rs). -/
structure DescField where
  index : Nat
  offset : Nat
  size : Nat
  ty : DescriptorType
  count : Nat
deriving DecidableEq, Repr

/-- `DescField::new`: the declared member offset is rounded up to a multiple
of `min_offset` (`offset += min_offset - offset % min_offset` when the
remainder is nonzero); the declared size passes through unchanged. -/
def DescField.new (index : Nat) (declaredOffset : Nat) (size : Nat)
    (ty : DescriptorType) (count : Nat) (min_offset : Nat) : DescField :=
  let modulo := declaredOffset % min_offset
  let offset := if modulo ≠ 0 then declaredOffset + (min_offset - modulo)
                else declaredOffset
  { index := index, offset := offset, size := size, ty := ty, count := count }

/-- `DescField::from_desc_res`: one `DescField` per struct member, keyed by
member name, with the member's declaration index. -/
def DescField.from_desc_res (members : List MemberDecl) (min_offset : Nat) :
    List (String × DescField) :=
  members.enum.map fun e =>
    (e.2.name, DescField.new e.1 e.2.declaredOffset e.2.size e.2.ty e.2.count min_offset)

/-- `Descriptor` (src/src/shader/descriptor.rs). -/
structure Descriptor where
  set : Nat
  binding : Nat
  name : String
  ty : DescriptorType
  count : Nat
  stage : ShaderStageFlags
  fields : List (String × DescField)
deriving DecidableEq, Repr

/-- `Descriptor::new`: copy the reflected decorations and build the field map
through `DescField::from_desc_res`. -/
def Descriptor.new (stage : ShaderStageFlags) (res : ResourceDecl)
    (min_offset : Nat) : Descriptor :=
  { set := res.set, binding := res.binding, name := res.name, ty := res.ty,
    count := res.count, stage := stage,
    fields := DescField.from_desc_res res.members min_offset }

/-- `vk::DescriptorPoolSize`. -/
structure DescriptorPoolSize where
  ty : DescriptorType
  descriptor_count : Nat
deriving DecidableEq, Repr

/-- `Descriptor::size`. -/
def Descriptor.size (d : Descriptor) : DescriptorPoolSize :=
  { ty := d.ty, descriptor_count := d.count }

/-- `BufField` (src/src/buffer/buf_struct.rs). -/
structure BufField where
  offset : Nat
  size : Nat
deriving DecidableEq, Repr

/-- `BufStruct`: `bufSize` is the size the backing `BufToken` was created
with (`BufToken::with_size` passes it straight to buffer creation). -/
structure BufStruct where
  bufSize : Nat
  fields : List (String × BufField)
deriving DecidableEq, Repr

/-- `BufStruct::from_fields`: insert every field into the map while tracking
`far_offset`/`far_size` — the offset and size of the furthest-offset field
seen so far, ties (`offset >= far_offset`) going to the later field — and
size the backing buffer as `far_offset + far_size`. -/
def BufStruct.from_fields (field_iter : List (String × Nat × Nat)) : BufStruct :=
  let scan := field_iter.foldl
    (fun acc e =>
      let fields := acc.1 ++ [(e.1, BufField.mk e.2.1 e.2.2)]
      if e.2.1 ≥ acc.2.1 then (fields, e.2.1, e.2.2) else (fields, acc.2))
    ([], 0, 0)
  { bufSize := scan.2.1 + scan.2.2, fields := scan.1 }

/-- Write-path failures: `missingField` embeds the Rust panic on indexing a
`HashMap` with an absent key; `sizeMismatch` embeds the explicit panic raised
when a payload's byte length differs from the field's declared size. -/
inductive WriteErr where
  | missingField
  | sizeMismatch
deriving DecidableEq, Repr

/-- The memory range `BufStruct::map_write` maps: exactly
`[offset, offset + size)` of the backing buffer. -/
structure MapWriteAction where
  offset : Nat
  size : Nat
deriving DecidableEq, Repr

/-- `BufStruct::map_write`: index the field map (panic — `missingField` — on
an unknown name, before any memory call), then map the field's range. -/
def BufStruct.map_write (b : BufStruct) (field : String) :
    Except WriteErr MapWriteAction :=
  match findEntry b.fields field with
  | none => .error .missingField
  | some f => .ok { offset := f.offset, size := f.size }

/-- `BufStruct::write`: compare the payload's byte length against the field's
declared size (indexing the field map first) and panic — `sizeMismatch` — on
any difference, before delegating to `map_write`; no memory is mapped or
written on either error. `dataSize` is `size_of_val(data)` in bytes. -/
def BufStruct.write (b : BufStruct) (field : String) (dataSize : Nat) :
    Except WriteErr MapWriteAction :=
  match findEntry b.fields field with
  | none => .error .missingField
  | some f =>
    if dataSize ≠ f.size then .error .sizeMismatch
    else b.map_write field

/-- `Descriptor::make_buffer`: a descriptor with an empty field map panics
("Not Implemented"), embedded as `none`; otherwise build a `BufStruct` from
the field map's (name, offset, size) triples. -/
def Descriptor.make_buffer (d : Descriptor) : Option BufStruct :=
  if d.fields.isEmpty then none
  else some (BufStruct.from_fields (d.fields.map fun e => (e.1, e.2.offset, e.2.size)))

/-- `vk::PushConstantRange`. -/
structure PushConstantRange where
  stage_flags : ShaderStageFlags
  size : Nat
  offset : Nat
deriving DecidableEq, Repr

/-- `PushConstant` (src/src/shader/descriptor.rs). -/
structure PushConstant where
  range : PushConstantRange
  fields : List (String × DescField)
deriving DecidableEq, Repr

/-- The `cmd_push_constants` call `PushConstant::write` records: stage flags,
the byte offset into the push-constant range, and the payload length. -/
structure PushCmd where
  stage_flags : ShaderStageFlags
  offset : Nat
  dataSize : Nat
deriving DecidableEq, Repr

/-- `PushConstant::write`: index the field map (panic — `missingField` — on an
unknown name), panic — `sizeMismatch` — when the payload length differs from
the field's declared size, otherwise push at `range.offset + field.offset`;
nothing reaches the command stream on either error. -/
def PushConstant.write (p : PushConstant) (field : String) (dataSize : Nat) :
    Except WriteErr PushCmd :=
  match findEntry p.fields field with
  | none => .error .missingField
  | some desc =>
    if dataSize ≠ desc.size then .error .sizeMismatch
    else .ok { stage_flags := p.range.stage_flags,
               offset := p.range.offset + desc.offset, dataSize := dataSize }

/-- `PushConstant::new`: range size is the fold-sum of the field sizes, range
offset is fixed at 0, fields come from `DescField::from_desc_res`. -/
def PushConstant.new (stage : ShaderStageFlags) (res : ResourceDecl)
    (min_offset : Nat) : PushConstant :=
  let fields := DescField.from_desc_res res.members min_offset
  { range := { stage_flags := stage,
               size := fields.foldl (fun acc e => acc + e.2.size) 0,
               offset := 0 },
    fields := fields }

/-- `DescPoolBuilder` (src/src/shader/descriptor.rs); `data` embeds the
`HashMap<u32, Vec<Descriptor>>` keyed by set index. -/
structure DescPoolBuilder where
  min_offset : Nat
  data : List (Nat × List Descriptor)
  push_consts : List (String × PushConstant)
deriving Repr

/-- `DescPoolToken::builder`. -/
def DescPoolToken.builder (min_offset : Nat) : DescPoolBuilder :=
  { min_offset := min_offset, data := [], push_consts := [] }

/-- `self.data.entry(set).or_insert_with(Vec::new).push(desc)`: append the
descriptor to its set's vector, creating the entry if absent. -/
def insertDesc : List (Nat × List Descriptor) → Nat → Descriptor →
    List (Nat × List Descriptor)
  | [], s, d => [(s, [d])]
  | e :: rest, s, d =>
    if e.1 = s then (e.1, e.2 ++ [d]) :: rest else e :: insertDesc rest s d

/-- `self.push_consts.insert(name, p)`: overwriting insert. -/
def insertPush : List (String × PushConstant) → String → PushConstant →
    List (String × PushConstant)
  | [], k, p => [(k, p)]
  | e :: rest, k, p => if e.1 = k then (k, p) :: rest else e :: insertPush rest k p

/-- The per-resource step of `DescPoolBuilder::add`: reflect the resource into
a `Descriptor` and push it onto its set's list. -/
def DescPoolBuilder.addDesc (b : DescPoolBuilder) (stage : ShaderStageFlags)
    (res : ResourceDecl) : DescPoolBuilder :=
  { b with data := insertDesc b.data res.set (Descriptor.new stage res b.min_offset) }

/-- One stage's reflected bytecode as `DescPoolBuilder::add` consumes it: the
entry point's stage, the chained resource lists, and the push-constant blocks. -/
structure StageDecl where
  stage : ShaderStageFlags
  resources : List ResourceDecl
  push_constant_buffers : List ResourceDecl
deriving Repr

/-- `DescPoolBuilder::add`: insert every reflected resource into the set map,
then insert (overwriting by name) every push-constant block. -/
def DescPoolBuilder.add (b : DescPoolBuilder) (s : StageDecl) : DescPoolBuilder :=
  let b2 := s.resources.foldl (fun b res => b.addDesc s.stage res) b
  let pcs := s.push_constant_buffers.foldl
    (fun m res => insertPush m res.name (PushConstant.new s.stage res b2.min_offset))
    b2.push_consts
  { b2 with push_consts := pcs }

/-- The pool-size vector `DescPoolBuilder::build` collects:
`data.iter().flat_map(|(_s, b)| b.iter()).map(Descriptor::size)`, as a
function of the order in which the set map's entries are iterated. -/
def buildSizes (data : List (Nat × List Descriptor)) : List DescriptorPoolSize :=
  (data.flatMap fun e => e.2).map Descriptor.size

/-- `build` passes `max_sets(self.data.len())`: the number of entries of the
set-keyed map. -/
def DescPoolBuilder.maxSets (b : DescPoolBuilder) : Nat := b.data.length

/-- The per-resource field-offset tables visible after `build`, again as a
function of the set map's entry order. -/
def fieldTables (data : List (Nat × List Descriptor)) :
    List (String × List (String × DescField)) :=
  (data.flatMap fun e => e.2).map fun d => (d.name, d.fields)

/-- `DescWriteInfo`; the payloads stand for the three native info records. -/
inductive DescWriteInfo where
  | Buf (v : Nat)
  | Img (v : Nat)
  | Tex (v : Nat)
deriving DecidableEq, Repr

/-- `vk::WriteDescriptorSet` as `Descriptor::make_write` fills it in. -/
structure WriteDescriptorSet where
  dst_set : Nat
  dst_binding : Nat
  descriptor_count : Nat
  descriptor_type : DescriptorType
  info : DescWriteInfo
deriving DecidableEq, Repr

/-- `Descriptor::make_write`. -/
def Descriptor.make_write (d : Descriptor) (set : Nat) (info : DescWriteInfo) :
    WriteDescriptorSet :=
  { dst_set := set, dst_binding := d.binding, descriptor_count := d.count,
    descriptor_type := d.ty, info := info }

/-- `SetToken`: the allocated set handle plus its name-keyed descriptor map. -/
structure SetToken where
  set : Nat
  descriptors : List (String × Descriptor)

/-- `SetToken::make_writes`: filter-map over the caller's (name, info) pairs —
a name absent from the set's descriptor map yields `None` (silently skipped),
a known name yields exactly one write record. -/
def SetToken.make_writes (t : SetToken) (info : List (String × DescWriteInfo)) :
    List WriteDescriptorSet :=
  info.filterMap fun e =>
    match findEntry t.descriptors e.1 with
    | none => none
    | some d => some (d.make_write t.set e.2)

/-- `DescPoolToken::make_buffers`: over every set's descriptors, skip those
with an empty field map and build a name-keyed buffer for the rest. -/
def DescPoolToken.make_buffers (sets : List SetToken) : List (String × BufStruct) :=
  (sets.flatMap fun s => s.descriptors).filterMap fun e =>
    if e.2.fields.isEmpty then none
    else (e.2.make_buffer).map fun b => (e.1, b)

/-- Association-list lookup with `Nat` (set-index) keys: the embedding of
`HashMap::get` on the builder's set map. -/
def findSet : List (Nat × List Descriptor) → Nat → Option (List Descriptor)
  | [], _ => none
  | e :: rest, s => if e.1 = s then some e.2 else findSet rest s

/-- A uniform block named "Camera" at (set 0, binding 0), as a vertex stage
reflects it. -/
def vertRes : ResourceDecl :=
  { set := 0, binding := 0, name := "Camera",
    ty := DescriptorType.UNIFORM_BUFFER, count := 1, members := [] }

/-- The same "Camera" block as a fragment stage reflects it. -/
def fragRes : ResourceDecl :=
  { set := 0, binding := 0, name := "Camera",
    ty := DescriptorType.UNIFORM_BUFFER, count := 1, members := [] }

/-- A combined sampler resource at (set 1, binding 0, count 1). -/
def sampRes : ResourceDecl :=
  { set := 1, binding := 0, name := "samp",
    ty := DescriptorType.SAMPLER, count := 1, members := [] }

/-- A uniform-buffer resource at (set 0, binding 0, count 1). -/
def uboRes : ResourceDecl :=
  { set := 0, binding := 0, name := "ubo",
    ty := DescriptorType.UNIFORM_BUFFER, count := 1, members := [] }

/-- The `Descriptor` the builder stores for `uboRes` (vertex stage). -/
def uboDesc : Descriptor := Descriptor.new VERTEX uboRes 256

/-- The `Descriptor` the builder stores for `sampRes` (fragment stage). -/
def sampDesc : Descriptor := Descriptor.new FRAGMENT sampRes 256

/-- A push-constant block declaring `mvp` (declared offset 0, size 64) and
then `tint` (declared offset 64, size 16). -/
def mvpTintBlock : ResourceDecl :=
  { set := 0, binding := 0, name := "pc",
    ty := DescriptorType.UNIFORM_BUFFER, count := 1,
    members :=
      [ { name := "mvp", declaredOffset := 0, size := 64,
          ty := DescriptorType.UNIFORM_BUFFER, count := 1 },
        { name := "tint", declaredOffset := 64, size := 16,
          ty := DescriptorType.UNIFORM_BUFFER, count := 1 } ] }

/-- The set-index keys of the builder's set map, in entry order. -/
def keysOf (data : List (Nat × List Descriptor)) : List Nat :=
  data.map fun e => e.1

/-- The total number of accumulated bindings across all sets. -/
def totalDescs (data : List (Nat × List Descriptor)) : Nat :=
  (data.flatMap fun e => e.2).length

/-- The set-map step of `DescPoolBuilder::add`, one resource at a time
(what `addDesc` does to the `data` field alone). -/
def foldStep (m : Nat) (dt : List (Nat × List Descriptor))
    (e : ShaderStageFlags × ResourceDecl) : List (Nat × List Descriptor) :=
  insertDesc dt e.2.set (Descriptor.new e.1 e.2 m)

/-- A set token holding the single descriptor `uboDesc` under its name. -/
def tEx : SetToken := { set := 7, descriptors := [("ubo", uboDesc)] }

/-- Spec-side reference quantity for C1 (from the spec's words, for
comparison with `BufStruct::from_fields`): the maximum over the fields of
(offset + size). -/
def fieldsMaxExtent (field_iter : List (String × Nat × Nat)) : Nat :=
  field_iter.foldl (fun m e => max m (e.2.1 + e.2.2)) 0

/-- A structured uniform block whose reflection, at `min_offset = 256`, sends
two members ("c1" declared at 16, "c2" declared at 256) to the same aligned
offset 256 — the layout on which `from_fields` undersizes the buffer. -/
def globalsRes : ResourceDecl :=
  { set := 0, binding := 0, name := "Globals",
    ty := DescriptorType.UNIFORM_BUFFER, count := 1,
    members :=
      [ { name := "c0", declaredOffset := 0, size := 16,
          ty := DescriptorType.UNIFORM_BUFFER, count := 1 },
        { name := "c1", declaredOffset := 16, size := 240,
          ty := DescriptorType.UNIFORM_BUFFER, count := 1 },
        { name := "c2", declaredOffset := 256, size := 4,
          ty := DescriptorType.UNIFORM_BUFFER, count := 1 } ] }

/-- C1 (code_bug evaluation): for the resource `globalsRes` reflected at
`min_offset = 256`, `Descriptor::make_buffer` / `BufStruct::from_fields`
creates a buffer of 260 bytes — `far_offset + far_size` of the field whose
offset wins the scan — while the maximum over the fields of (offset + size)
is 496, and the recorded field "c1" (offset 256, size 240) extends 236 bytes
past the end of the allocated buffer. -/
theorem C1_buffer_size_undersized :
    ((Descriptor.new VERTEX globalsRes 256).make_buffer).map
        (fun bs => bs.bufSize) = some 260 ∧
    fieldsMaxExtent ((Descriptor.new VERTEX globalsRes 256).fields.map
        fun e => (e.1, e.2.offset, e.2.size)) = 496 ∧
    ((Descriptor.new VERTEX globalsRes 256).make_buffer).map
        (fun bs => findEntry bs.fields "c1") = some (some (BufField.mk 256 240)) ∧
    260 < 256 + 240 := by
  refine ⟨?_, ?_, ?_, ?_⟩ <;> decide

/-- Arithmetic core of `DescField::new`'s rounding branch: when the declared
offset is not a multiple of the alignment, the adjusted offset is exactly the
next multiple. -/
theorem round_eq (d A : Nat) (hA : 0 < A) (_hm : d % A ≠ 0) :
    d + (A - d % A) = A * (d / A + 1) := by
  have h1 : d % A < A := Nat.mod_lt _ hA
  calc d + (A - d % A) = A * (d / A) + d % A + (A - d % A) := by
        rw [Nat.div_add_mod d A]
    _ = A * (d / A) + (d % A + (A - d % A)) := by rw [Nat.add_assoc]
    _ = A * (d / A) + A := by rw [Nat.add_sub_cancel' (Nat.le_of_lt h1)]
    _ = A * (d / A + 1) := by rw [Nat.mul_succ]

/-- Minimality of the rounded offset among multiples of the alignment. -/
theorem round_min (d A : Nat) (_hA : 0 < A) (hm : d % A ≠ 0)
    (o : Nat) (ho : o % A = 0) (hdo : d ≤ o) : A * (d / A + 1) ≤ o := by
  obtain ⟨k, hk⟩ := Nat.dvd_of_mod_eq_zero ho
  subst hk
  have hmpos : 0 < d % A := Nat.pos_of_ne_zero hm
  have hlt : A * (d / A) < d := by
    calc A * (d / A) < A * (d / A) + d % A := Nat.lt_add_of_pos_right hmpos
      _ = d := Nat.div_add_mod d A
  have hqk : d / A < k := Nat.lt_of_mul_lt_mul_left (Nat.lt_of_lt_of_le hlt hdo)
  exact Nat.mul_le_mul_left A hqk

/-- C2: for any structured member with declared offset `d`, declared size
`sz` and alignment `A > 0`, the `DescField::new` offset is a multiple of `A`,
is at least `d`, and is the least multiple of `A` that is at least `d`; the
size is taken from the declaration unchanged. -/
theorem C2_field_offset_alignment (i d sz : Nat) (ty : DescriptorType)
    (c A : Nat) (hA : 0 < A) :
    (DescField.new i d sz ty c A).offset % A = 0 ∧
    d ≤ (DescField.new i d sz ty c A).offset ∧
    (∀ o, o % A = 0 → d ≤ o → (DescField.new i d sz ty c A).offset ≤ o) ∧
    (DescField.new i d sz ty c A).size = sz := by
  have hoff : (DescField.new i d sz ty c A).offset
      = if d % A ≠ 0 then d + (A - d % A) else d := rfl
  have hsz : (DescField.new i d sz ty c A).size = sz := rfl
  by_cases hm : d % A = 0
  · rw [hoff, if_neg (not_not_intro hm)]
    exact ⟨hm, Nat.le_refl d, fun o _ hdo => hdo, hsz⟩
  · rw [hoff, if_pos hm, round_eq d A hA hm]
    refine ⟨Nat.mul_mod_right A (d / A + 1), ?_, ?_, hsz⟩
    · rw [← round_eq d A hA hm]
      exact Nat.le_add_right _ _
    · exact fun o ho hdo => round_min d A hA hm o ho hdo

/-- C2 witness: declared offset 5 at alignment 4 rounds to 8, size 16 kept. -/
theorem C2_field_offset_alignment_witness :
    0 < 4 ∧
    ((DescField.new 0 5 16 DescriptorType.UNIFORM_BUFFER 1 4).offset % 4 = 0 ∧
     5 ≤ (DescField.new 0 5 16 DescriptorType.UNIFORM_BUFFER 1 4).offset ∧
     (∀ o, o % 4 = 0 → 5 ≤ o →
       (DescField.new 0 5 16 DescriptorType.UNIFORM_BUFFER 1 4).offset ≤ o) ∧
     (DescField.new 0 5 16 DescriptorType.UNIFORM_BUFFER 1 4).size = 16) :=
  ⟨by decide,
   C2_field_offset_alignment 0 5 16 DescriptorType.UNIFORM_BUFFER 1 4 (by decide)⟩

/-- `Descriptor::new` stores the reflected set index unchanged. -/
theorem Descriptor.new_set (stage : ShaderStageFlags) (r : ResourceDecl)
    (m : Nat) : (Descriptor.new stage r m).set = r.set := rfl

/-- C3: adding two resources that share a (set, binding) pair — e.g. the same
block reflected from two stages — makes `DescPoolBuilder::add` push two
separate `Descriptor` entries onto that set's list, each keeping only its own
stage's visibility flags; nothing unions them into one binding. -/
theorem C3_same_slot_two_entries (m : Nat) (stage1 stage2 : ShaderStageFlags)
    (r1 r2 : ResourceDecl) (hset : r1.set = r2.set)
    (hbind : r1.binding = r2.binding) :
    findSet (((DescPoolToken.builder m).addDesc stage1 r1).addDesc stage2 r2).data
        r2.set
      = some [Descriptor.new stage1 r1 m, Descriptor.new stage2 r2 m] ∧
    (Descriptor.new stage1 r1 m).stage = stage1 ∧
    (Descriptor.new stage2 r2 m).stage = stage2 ∧
    (Descriptor.new stage1 r1 m).binding = (Descriptor.new stage2 r2 m).binding := by
  refine ⟨?_, rfl, rfl, hbind⟩
  simp [DescPoolToken.builder, DescPoolBuilder.addDesc, insertDesc, findSet,
    Descriptor.new_set, hset]

/-- C3 witness: the "Camera" block declared by a vertex and a fragment stage
at (set 0, binding 0) yields two entries in set 0's list. -/
theorem C3_same_slot_two_entries_witness :
    vertRes.set = fragRes.set ∧ vertRes.binding = fragRes.binding ∧
    (findSet (((DescPoolToken.builder 256).addDesc VERTEX vertRes).addDesc
          FRAGMENT fragRes).data fragRes.set
        = some [Descriptor.new VERTEX vertRes 256,
                Descriptor.new FRAGMENT fragRes 256] ∧
     (Descriptor.new VERTEX vertRes 256).stage = VERTEX ∧
     (Descriptor.new FRAGMENT fragRes 256).stage = FRAGMENT ∧
     (Descriptor.new VERTEX vertRes 256).binding
        = (Descriptor.new FRAGMENT fragRes 256).binding) :=
  ⟨rfl, rfl, C3_same_slot_two_entries 256 VERTEX FRAGMENT vertRes fragRes rfl rfl⟩

/-- C4 counterexample: the pool-size vector is read off by iterating the
builder's set-keyed `HashMap`, whose iteration order is unspecified and
seed-randomised per map instance; two orders presenting the same accumulated
entries — here sets 0 and 1 with one descriptor each — give different
pool-size vectors, so "building twice yields identical pool-size vectors"
fails as stated. -/
theorem C4_order_counterexample :
    [(0, [uboDesc]), (1, [sampDesc])].Perm [(1, [sampDesc]), (0, [uboDesc])] ∧
    buildSizes [(0, [uboDesc]), (1, [sampDesc])]
      ≠ buildSizes [(1, [sampDesc]), (0, [uboDesc])] := by
  constructor
  · exact List.Perm.swap _ _ _
  · decide

/-- C4 amended: building from the same ordered inputs determines the
pool-size vector and the per-resource field tables up to the set map's
iteration order — any two presentation orders of the same accumulated
entries give pool-size vectors that are permutations of each other (equal as
multisets) and field-table lists that are permutations of each other (every
resource gets the identical field-offset table). -/
theorem C4_build_deterministic_up_to_order
    (data1 data2 : List (Nat × List Descriptor)) (h : data1.Perm data2) :
    (buildSizes data1).Perm (buildSizes data2) ∧
    (fieldTables data1).Perm (fieldTables data2) :=
  ⟨(h.flatMap_right _).map _, (h.flatMap_right _).map _⟩

/-- C4 witness: the two presentation orders of the counterexample's entries
give permuted pool-size vectors and permuted field tables. -/
theorem C4_build_deterministic_up_to_order_witness :
    [(0, [uboDesc]), (1, [sampDesc])].Perm [(1, [sampDesc]), (0, [uboDesc])] ∧
    ((buildSizes [(0, [uboDesc]), (1, [sampDesc])]).Perm
        (buildSizes [(1, [sampDesc]), (0, [uboDesc])]) ∧
     (fieldTables [(0, [uboDesc]), (1, [sampDesc])]).Perm
        (fieldTables [(1, [sampDesc]), (0, [uboDesc])])) :=
  ⟨List.Perm.swap _ _ _,
   C4_build_deterministic_up_to_order _ _ (List.Perm.swap _ _ _)⟩

/-- C5: for the push-constant block declaring `mvp` (size 64) then `tint`
(size 16), reflected at any alignment `A > 0` dividing 64, the constructed
`PushConstant` has base offset 0 and range size 80 (the sum of the field
sizes), and writing `tint` with a 16-byte payload records a push at byte
offset 64 from the block's base offset. -/
theorem C5_push_constant_block (stage : ShaderStageFlags) (A : Nat)
    (_hA : 0 < A) (hdvd : A ∣ 64) :
    (PushConstant.new stage mvpTintBlock A).range.offset = 0 ∧
    (PushConstant.new stage mvpTintBlock A).range.size = 80 ∧
    (PushConstant.new stage mvpTintBlock A).write "tint" 16
      = Except.ok { stage_flags := stage, offset := 64, dataSize := 16 } := by
  have h64 : 64 % A = 0 := Nat.mod_eq_zero_of_dvd hdvd
  have h0 : 0 % A = 0 := Nat.zero_mod A
  refine ⟨rfl, ?_, ?_⟩ <;>
    simp [PushConstant.new, PushConstant.write, DescField.from_desc_res,
      DescField.new, mvpTintBlock, findEntry, List.enum, h64, h0]

/-- C5 witness: the block at alignment 16. -/
theorem C5_push_constant_block_witness :
    (0 < 16 ∧ 16 ∣ 64) ∧
    ((PushConstant.new VERTEX mvpTintBlock 16).range.offset = 0 ∧
     (PushConstant.new VERTEX mvpTintBlock 16).range.size = 80 ∧
     (PushConstant.new VERTEX mvpTintBlock 16).write "tint" 16
       = Except.ok { stage_flags := VERTEX, offset := 64, dataSize := 16 }) :=
  ⟨⟨by decide, ⟨4, by decide⟩⟩,
   C5_push_constant_block VERTEX 16 (by decide) ⟨4, by decide⟩⟩

/-- C6: both field-write paths fail with the size-mismatch error exactly when
the payload's byte length differs from the field's declared size — shorter or
longer — and succeed (producing the mapped range, resp. the push command,
with no memory touched beforehand on the error path) exactly on an equal
length. -/
theorem C6_size_mismatch_exact (b : BufStruct) (p : PushConstant)
    (fb fp : String) (f : BufField) (d : DescField) (n m : Nat)
    (hb : findEntry b.fields fb = some f)
    (hp : findEntry p.fields fp = some d) :
    (b.write fb n = Except.error WriteErr.sizeMismatch ↔ n ≠ f.size) ∧
    (n = f.size → b.write fb n = Except.ok { offset := f.offset, size := f.size }) ∧
    (p.write fp m = Except.error WriteErr.sizeMismatch ↔ m ≠ d.size) ∧
    (m = d.size → p.write fp m
      = Except.ok { stage_flags := p.range.stage_flags,
                    offset := p.range.offset + d.offset, dataSize := m }) := by
  refine ⟨?_, ?_, ?_, ?_⟩
  · by_cases hn : n = f.size <;>
      simp [BufStruct.write, BufStruct.map_write, hb, hn]
  · intro hn
    simp [BufStruct.write, BufStruct.map_write, hb, hn]
  · by_cases hm : m = d.size <;>
      simp [PushConstant.write, hp, hm]
  · intro hm
    simp [PushConstant.write, hp, hm]

/-- C6 witness: a buffer field of size 4 rejects lengths 3 and 5 and accepts
4; the push-constant field `tint` (size 16) rejects 15 and accepts 16. -/
theorem C6_size_mismatch_exact_witness :
    findEntry (BufStruct.from_fields [("x", 0, 4)]).fields "x"
      = some (BufField.mk 0 4) ∧
    findEntry (PushConstant.new VERTEX mvpTintBlock 16).fields "tint"
      = some (DescField.mk 1 64 16 DescriptorType.UNIFORM_BUFFER 1) ∧
    (((BufStruct.from_fields [("x", 0, 4)]).write "x" 3
        = Except.error WriteErr.sizeMismatch ↔ (3 : Nat) ≠ 4) ∧
     ((3 : Nat) = 4 → (BufStruct.from_fields [("x", 0, 4)]).write "x" 3
        = Except.ok { offset := 0, size := 4 }) ∧
     ((PushConstant.new VERTEX mvpTintBlock 16).write "tint" 15
        = Except.error WriteErr.sizeMismatch ↔ (15 : Nat) ≠ 16) ∧
     ((15 : Nat) = 16 → (PushConstant.new VERTEX mvpTintBlock 16).write "tint" 15
        = Except.ok { stage_flags := (PushConstant.new VERTEX mvpTintBlock 16).range.stage_flags,
                      offset := (PushConstant.new VERTEX mvpTintBlock 16).range.offset + 64,
                      dataSize := 15 })) :=
  ⟨by decide, by decide,
   C6_size_mismatch_exact (BufStruct.from_fields [("x", 0, 4)])
     (PushConstant.new VERTEX mvpTintBlock 16) "x" "tint"
     (BufField.mk 0 4) (DescField.mk 1 64 16 DescriptorType.UNIFORM_BUFFER 1)
     3 15 (by decide) (by decide)⟩

/-- C10: an unknown field name is a hard failure on every buffer-write entry
point — `BufStruct::map_write`, `BufStruct::write` and `PushConstant::write`
all index the field map directly and panic (embedded as `missingField`)
before any memory is mapped, written or pushed — in contrast with the
permissive skip policy of `SetToken::make_writes`. -/
theorem C10_unknown_field_hard_failure (b : BufStruct) (p : PushConstant)
    (f g : String) (n m : Nat)
    (hb : findEntry b.fields f = none) (hp : findEntry p.fields g = none) :
    b.map_write f = Except.error WriteErr.missingField ∧
    b.write f n = Except.error WriteErr.missingField ∧
    p.write g m = Except.error WriteErr.missingField := by
  refine ⟨?_, ?_, ?_⟩ <;>
    simp [BufStruct.map_write, BufStruct.write, PushConstant.write, hb, hp]

/-- C10 witness: the name "nope" is absent from both field maps. -/
theorem C10_unknown_field_hard_failure_witness :
    findEntry (BufStruct.from_fields [("x", 0, 4)]).fields "nope" = none ∧
    findEntry (PushConstant.new VERTEX mvpTintBlock 16).fields "nope" = none ∧
    ((BufStruct.from_fields [("x", 0, 4)]).map_write "nope"
        = Except.error WriteErr.missingField ∧
     (BufStruct.from_fields [("x", 0, 4)]).write "nope" 4
        = Except.error WriteErr.missingField ∧
     (PushConstant.new VERTEX mvpTintBlock 16).write "nope" 16
        = Except.error WriteErr.missingField) :=
  ⟨by decide, by decide,
   C10_unknown_field_hard_failure (BufStruct.from_fields [("x", 0, 4)])
     (PushConstant.new VERTEX mvpTintBlock 16) "nope" "nope" 4 16
     (by decide) (by decide)⟩

/-- Folding `addDesc` over a builder only threads the set map through
`insertDesc` (the `min_offset` never changes). -/
theorem accumulate_data (inputs : List (ShaderStageFlags × ResourceDecl)) :
    ∀ b : DescPoolBuilder,
      (inputs.foldl (fun b e => b.addDesc e.1 e.2) b).data
        = inputs.foldl (foldStep b.min_offset) b.data := by
  induction inputs with
  | nil => intro b; rfl
  | cons e rest ih =>
    intro b
    simp only [List.foldl_cons]
    rw [ih (b.addDesc e.1 e.2)]
    rfl

/-- `insertDesc` appends a fresh key exactly when the key is new. -/
theorem keysOf_insertDesc (s : Nat) (d : Descriptor) :
    ∀ data : List (Nat × List Descriptor),
      keysOf (insertDesc data s d)
        = if s ∈ keysOf data then keysOf data else keysOf data ++ [s]
  | [] => by simp [insertDesc, keysOf]
  | e :: rest => by
    have ih := keysOf_insertDesc s d rest
    by_cases h : e.1 = s
    · simp [insertDesc, keysOf, h]
    · have hne : ¬s = e.1 := fun hh => h hh.symm
      simp only [insertDesc, if_neg h, keysOf, List.map_cons, List.mem_cons] at *
      rw [ih]
      by_cases hmem : s ∈ List.map (fun e => e.1) rest
      · simp [hmem, hne]
      · simp [hmem, hne]

/-- Folding the set-map step keeps the key list duplicate-free and makes its
key set the union of the initial keys and the added resources' set indices. -/
theorem keys_fold_clean (m : Nat) :
    ∀ (inputs : List (ShaderStageFlags × ResourceDecl))
      (dt : List (Nat × List Descriptor)),
      (keysOf dt).Nodup →
      (keysOf (inputs.foldl (foldStep m) dt)).Nodup ∧
      (keysOf (inputs.foldl (foldStep m) dt)).toFinset
        = (keysOf dt).toFinset ∪ (inputs.map fun e => e.2.set).toFinset
  | [], dt => fun h => ⟨h, by simp⟩
  | e :: rest, dt => fun h => by
    have hstep : keysOf (foldStep m dt e)
        = if e.2.set ∈ keysOf dt then keysOf dt else keysOf dt ++ [e.2.set] :=
      keysOf_insertDesc e.2.set _ dt
    have hnd : (keysOf (foldStep m dt e)).Nodup := by
      rw [hstep]
      by_cases hmem : e.2.set ∈ keysOf dt
      · simpa [hmem] using h
      · simp [hmem, List.nodup_append, h]
    have hfin : (keysOf (foldStep m dt e)).toFinset
        = insert e.2.set (keysOf dt).toFinset := by
      rw [hstep]
      by_cases hmem : e.2.set ∈ keysOf dt
      · simp only [if_pos hmem]
        exact (Finset.insert_eq_self.mpr (List.mem_toFinset.mpr hmem)).symm
      · simp only [if_neg hmem]
        ext x
        simp [or_comm]
    obtain ⟨h1, h2⟩ := keys_fold_clean m rest (foldStep m dt e) hnd
    refine ⟨h1, ?_⟩
    show (keysOf (rest.foldl (foldStep m) (foldStep m dt e))).toFinset = _
    rw [h2, hfin]
    ext x
    simp [or_assoc, or_comm, or_left_comm]

/-- `insertDesc` grows the total binding count by exactly one. -/
theorem totalDescs_insertDesc (s : Nat) (d : Descriptor) :
    ∀ data : List (Nat × List Descriptor),
      totalDescs (insertDesc data s d) = totalDescs data + 1
  | [] => by simp [insertDesc, totalDescs]
  | e :: rest => by
    by_cases h : e.1 = s
    · simp [insertDesc, totalDescs, h]
      omega
    · have ih := totalDescs_insertDesc s d rest
      simp [insertDesc, totalDescs, h] at ih ⊢
      omega

/-- Folding the set-map step adds one binding per input resource. -/
theorem totalDescs_fold (m : Nat) :
    ∀ (inputs : List (ShaderStageFlags × ResourceDecl))
      (dt : List (Nat × List Descriptor)),
      totalDescs (inputs.foldl (foldStep m) dt) = totalDescs dt + inputs.length
  | [], dt => by simp
  | e :: rest, dt => by
    simp only [List.foldl_cons, List.length_cons]
    rw [totalDescs_fold m rest (foldStep m dt e)]
    show totalDescs (insertDesc dt e.2.set _) + rest.length = _
    rw [totalDescs_insertDesc]
    omega

/-- The pool-size vector has one entry per accumulated binding. -/
theorem buildSizes_length (data : List (Nat × List Descriptor)) :
    (buildSizes data).length = totalDescs data := by
  simp [buildSizes, totalDescs]

/-- C7: for every builder state reached by adding resources to a fresh
builder, `build` requests `max_sets` equal to the number of distinct set
indices accumulated and a pool-size list with one (kind, count) entry per
accumulated binding; in particular one sampler at (set 1, binding 0,
count 1) plus one uniform buffer at (set 0, binding 0, count 1) give
`max_sets = 2` and a pool-size list of length 2 holding exactly one SAMPLER
entry and exactly one UNIFORM_BUFFER entry. -/
theorem C7_pool_shape (m : Nat) (inputs : List (ShaderStageFlags × ResourceDecl)) :
    ((inputs.foldl (fun b e => b.addDesc e.1 e.2) (DescPoolToken.builder m)).maxSets
        = ((inputs.map fun e => e.2.set).toFinset).card ∧
     (buildSizes (inputs.foldl (fun b e => b.addDesc e.1 e.2)
          (DescPoolToken.builder m)).data).length = inputs.length) ∧
    (([(FRAGMENT, sampRes), (VERTEX, uboRes)].foldl
          (fun b e => b.addDesc e.1 e.2) (DescPoolToken.builder 256)).maxSets = 2 ∧
     ((buildSizes ([(FRAGMENT, sampRes), (VERTEX, uboRes)].foldl
            (fun b e => b.addDesc e.1 e.2) (DescPoolToken.builder 256)).data).countP
          (fun s => decide (s.ty = DescriptorType.SAMPLER)) = 1 ∧
      (buildSizes ([(FRAGMENT, sampRes), (VERTEX, uboRes)].foldl
            (fun b e => b.addDesc e.1 e.2) (DescPoolToken.builder 256)).data).countP
          (fun s => decide (s.ty = DescriptorType.UNIFORM_BUFFER)) = 1 ∧
      (buildSizes ([(FRAGMENT, sampRes), (VERTEX, uboRes)].foldl
            (fun b e => b.addDesc e.1 e.2) (DescPoolToken.builder 256)).data).length
          = 2)) := by
  constructor
  · have hdata := accumulate_data inputs (DescPoolToken.builder m)
    have hmo : (DescPoolToken.builder m).min_offset = m := rfl
    have hdt : (DescPoolToken.builder m).data = [] := rfl
    rw [hmo, hdt] at hdata
    constructor
    · simp only [DescPoolBuilder.maxSets]
      rw [hdata]
      obtain ⟨hnd, hfin⟩ := keys_fold_clean m inputs [] (by simp [keysOf])
      have hcard := List.toFinset_card_of_nodup hnd
      have hfin2 : (keysOf (inputs.foldl (foldStep m) [])).toFinset
          = (inputs.map fun e => e.2.set).toFinset := by
        rw [hfin]
        simp [keysOf]
      rw [← hfin2, hcard]
      simp [keysOf]
    · rw [hdata, buildSizes_length, totalDescs_fold]
      simp [totalDescs]
  · refine ⟨?_, ?_, ?_, ?_⟩ <;> decide

/-- C8: the name-keyed buffer map built by `DescPoolToken::make_buffers`
holds an entry under a name exactly when some set's descriptor map holds a
structured descriptor (non-empty field map) under that name; descriptors
with empty field maps contribute nothing. -/
theorem C8_make_buffers_names (sets : List SetToken) (name : String) :
    (∃ b, (name, b) ∈ DescPoolToken.make_buffers sets) ↔
      ∃ s ∈ sets, ∃ e ∈ s.descriptors, e.1 = name ∧ e.2.fields ≠ [] := by
  constructor
  · rintro ⟨b, hb⟩
    simp only [DescPoolToken.make_buffers, List.mem_filterMap,
      List.mem_flatMap] at hb
    obtain ⟨e, ⟨s, hs, hes⟩, hfe⟩ := hb
    by_cases hempty : e.2.fields.isEmpty
    · rw [if_pos hempty] at hfe
      cases hfe
    · refine ⟨s, hs, e, hes, ?_, ?_⟩
      · rw [if_neg hempty] at hfe
        simp only [Descriptor.make_buffer, if_neg hempty] at hfe
        simp at hfe
        exact hfe.1
      · intro hnil
        exact hempty (by simp [hnil])
  · rintro ⟨s, hs, e, hes, hname, hne⟩
    have hempty : ¬e.2.fields.isEmpty := by
      cases hfs : e.2.fields with
      | nil => exact absurd hfs hne
      | cons a l => simp [hfs]
    refine ⟨BufStruct.from_fields (e.2.fields.map fun f => (f.1, f.2.offset, f.2.size)), ?_⟩
    simp only [DescPoolToken.make_buffers, List.mem_filterMap, List.mem_flatMap]
    refine ⟨e, ⟨s, hs, hes⟩, ?_⟩
    rw [if_neg hempty]
    simp [Descriptor.make_buffer, hempty, hname]

/-- C9: `SetToken::make_writes` silently drops every (name, info) pair whose
name is not in the set's descriptor map — no record, no error — and emits
exactly one native write record per known name, so the output length is the
number of known-name pairs. -/
theorem C9_make_writes_policy (t : SetToken) :
    (∀ name i rest, findEntry t.descriptors name = none →
        t.make_writes ((name, i) :: rest) = t.make_writes rest) ∧
    (∀ name i rest d, findEntry t.descriptors name = some d →
        t.make_writes ((name, i) :: rest)
          = d.make_write t.set i :: t.make_writes rest) ∧
    (∀ info, (t.make_writes info).length
        = (info.filter fun e => (findEntry t.descriptors e.1).isSome).length) := by
  refine ⟨?_, ?_, ?_⟩
  · intro name i rest h
    simp [SetToken.make_writes, h]
  · intro name i rest d h
    simp [SetToken.make_writes, h]
  · intro info
    induction info with
    | nil => rfl
    | cons e rest ih =>
      cases h : findEntry t.descriptors e.1 with
      | none =>
        simpa [SetToken.make_writes, List.filterMap_cons, List.filter_cons, h]
          using ih
      | some d =>
        simpa [SetToken.make_writes, List.filterMap_cons, List.filter_cons, h]
          using ih

/-- C9 witness: an unknown name produces no record and no error; with one
known and one unknown pair the output has exactly one record. -/
theorem C9_make_writes_policy_witness :
    findEntry tEx.descriptors "nope" = none ∧
    tEx.make_writes [("nope", DescWriteInfo.Buf 0)] = tEx.make_writes [] :=
  ⟨by decide,
   (C9_make_writes_policy tEx).1 "nope" (DescWriteInfo.Buf 0) [] (by decide)⟩

end Flint
